import Mathlib

/-!
# PICpilot, `Autopilot/AttitudeManager/PWMInterface.c`: the PCA9685 PWM driver

A shallow embedding of `PWMInterface.c` / `PWMInterface.h` and the properties of the
driver that are settled on it.

Modelling conventions.

* `int` is `ℤ` (no wrap-around).  A store into a `char` cell keeps the 8-bit pattern of the
  value, `toChar v = v % 256`.
* `float` is `ℚ`: products, quotients and `floor` are exact.  `x / 0` is `0` in `ℚ`
  where C gives an infinity; no statement below depends on the value of such a quotient.
  Every concrete evaluation below uses integers and powers of two only, which `float`
  represents exactly.
* The globals of the translation unit are the fields of `Driver`.  Arrays are maps from the
  index to the cell, not clipped to the declared length: `a[i]` addresses the cell at
  distance `i` from the start of `a`, also for an `i` outside the declaration.
* Calls into the I2C layer (`initI2C`, `checkDevicePresence`, `sendMessage`, `readMessage`)
  and to `error` are external.  Each call is appended to the trace `Driver.bus`; the value a
  call returns is a parameter of the function that makes it.
* `DEBUG` is the preprocessor switch around the calls of `error`.

Limits of the model, and how the statements respect them.

* Rounding to binary32 and the bounded range of `int` are not modelled.  A statement that
  ranges over scale factors is made only where rounding cannot change it (a sign argument, a
  comparison with 4096 that monotone rounding keeps, an offset 0) or where its hypotheses
  keep every operation exact (scale a power of two, small integers).
* In the program the cells `pwmChannel[15]` and `pwmData[3]` lie outside the declarations
  and share storage with the neighbouring globals; in the model they are cells of their
  own.  Statements that name the register `setPWMValue` writes to or the ON and OFF
  points it computes, and the statement about the table after `initPWMInterface`, are made
  for the channels `0 .. 14`; the statements that mention an index outside a declaration
  say only that the access takes place.
-/

namespace PWMInterface

/-! ## Constants of `PWMInterface.h` -/

/-- The macro `NUM_PWM_CHANNELS`. -/
def NUM_PWM_CHANNELS : Int := 16

/-- The macro `MAX_I2C_PWM`. -/
def MAX_I2C_PWM : Int := 4096

/-- The macro `MIN_I2C_PWM`. -/
def MIN_I2C_PWM : Int := 0

/-- The macro `PWM_SLAVE_ADDRESS`. -/
def PWM_SLAVE_ADDRESS : Int := 0x80

/-- The record `struct channelData`. -/
structure channelData where
  firstRegAddress : Int
  pwmOffset : Int
  scaleFactor : ℚ
deriving DecidableEq

/-! ## External calls and the driver state -/

/-- One call that leaves the translation unit, with the arguments passed.  For
`sendMessage`, `data` is the content of the buffer the pointer argument designates
and `length` is the length argument as passed. -/
inductive BusEvent where
  | initI2C
  | checkDevicePresence (address reg : Int)
  | sendMessage (address reg : Int) (data : List Int) (length : Int) (flag : Char)
  | readMessage (address reg : Int)
  | error (msg : String)
deriving DecidableEq

/-- The globals of `PWMInterface.c`, and the trace of external calls. -/
structure Driver where
  pwmChannel : Int → channelData
  pwmData : Int → Int
  dataByte : Int
  onPoint : Int
  offPoint : Int
  dataLength : Int
  bus : List BusEvent

/-- Declared length of `pwmChannel`: `struct channelData pwmChannel[NUM_PWM_CHANNELS - 1]`. -/
def pwmChannelDeclaredLength : Int := NUM_PWM_CHANNELS - 1

/-- Declared length of `pwmData`: `char pwmData[3]`. -/
def pwmDataDeclaredLength : Int := 3

/-- The state at program start: objects of static storage are zero. -/
def startup : Driver :=
  { pwmChannel := fun _ => ⟨0, 0, 0⟩
    pwmData := fun _ => 0
    dataByte := 0
    onPoint := 0
    offPoint := 0
    dataLength := 0
    bus := [] }

/-- The 8-bit pattern kept by a store into a `char`. -/
def toChar (v : Int) : Int := v % 256

/-- The text passed to `error` by `initPWMInterface`. -/
def boardNotFoundMsg : String := "PWM extension (PCA9685) board not found"

/-- The text passed to `error` by `configurePWMOutput` and `getPWMValue`. -/
def invalidChannelMsg : String := "PWMInterface: invalid PWM channel argument."

/-- The text passed to `error` by `setPWMValue`. -/
def invalidReadMsg : String := "Attempted read of invalid PWM output channel."

/-- The block `#if DEBUG error(msg); #endif`. -/
def reportError (DEBUG : Bool) (d : Driver) (msg : String) : Driver :=
  if DEBUG then { d with bus := d.bus ++ [BusEvent.error msg] } else d

/-- The statement `pwmData[i] = v;`. -/
def storePwmData (d : Driver) (i v : Int) : Driver :=
  { d with pwmData := Function.update d.pwmData i (toChar v) }

/-- The statement `sendMessage(PWM_SLAVE_ADDRESS, reg, pwmData, dataLength, '0');`. -/
def sendPwmData (d : Driver) (reg : Int) : Driver :=
  { d with bus := d.bus ++
      [BusEvent.sendMessage PWM_SLAVE_ADDRESS reg
        [d.pwmData 0, d.pwmData 1, d.pwmData 2, d.pwmData 3] d.dataLength '0'] }

/-! ## `initPWMInterface` -/

/-- The loop `while (i < NUM_PWM_CHANNELS) { ...; i++; }` of `initPWMInterface`,
entered with the counter at `i`. -/
def initLoop (d : Driver) (i : Int) : Driver :=
  if h : i < NUM_PWM_CHANNELS then
    let d := { d with pwmChannel := Function.update d.pwmChannel i
                            ({ d.pwmChannel i with firstRegAddress := toChar ((4 * i) + 6) }) }
    let d := { d with pwmChannel := Function.update d.pwmChannel i
                            ({ d.pwmChannel i with pwmOffset := 0 }) }
    let d := { d with pwmChannel := Function.update d.pwmChannel i
                            ({ d.pwmChannel i with scaleFactor := 4 }) }
    initLoop d (i + 1)
  else d
termination_by (NUM_PWM_CHANNELS - i).toNat
decreasing_by
  simp only [NUM_PWM_CHANNELS] at h ⊢
  omega

/-- The function `initPWMInterface`; `present` is what `checkDevicePresence` returns. -/
def initPWMInterface (DEBUG : Bool) (present : Int) (d : Driver) : Driver :=
  let d := { d with bus := d.bus ++ [BusEvent.initI2C] }
  let d := { d with bus := d.bus ++ [BusEvent.checkDevicePresence PWM_SLAVE_ADDRESS 0x00] }
  if present = 0 then
    reportError DEBUG d boardNotFoundMsg
  else
    let d := initLoop d 0
    let d := { d with dataByte := toChar 0x21 }
    let d := { d with dataLength := toChar 1 }
    { d with bus := d.bus ++
        [BusEvent.sendMessage PWM_SLAVE_ADDRESS 0x00 [d.dataByte] d.dataLength '0'] }

/-! ## `resetPWMInterface` -/

/-- The function `resetPWMInterface`.  The length argument of the call is the
character constant `'1'`, not `dataLength`. -/
def resetPWMInterface (d : Driver) : Driver :=
  let d := { d with dataByte := toChar 0xA1 }
  let d := { d with dataLength := toChar 1 }
  { d with bus := d.bus ++
      [BusEvent.sendMessage PWM_SLAVE_ADDRESS 0x00 [d.dataByte] (Char.toNat '1') '0'] }

/-! ## `configurePWMOutput` -/

/-- The function `configurePWMOutput`. -/
def configurePWMOutput (DEBUG : Bool) (d : Driver) (channel offsetValue : Int)
    (scaleValue : ℚ) : Driver :=
  if channel ≥ NUM_PWM_CHANNELS then
    reportError DEBUG d invalidChannelMsg
  else
    let d := { d with pwmChannel := Function.update d.pwmChannel channel
                            ({ d.pwmChannel channel with pwmOffset := offsetValue }) }
    { d with pwmChannel := Function.update d.pwmChannel channel
                            ({ d.pwmChannel channel with scaleFactor := scaleValue }) }

/-! ## `setPWMValue` -/

/-- The four stores of the interior branch of `setPWMValue`:
`pwmData[0] = onPoint & 0xFF; pwmData[1] = onPoint >> 8;`
`pwmData[2] = offPoint & 0xFF; pwmData[3] = offPoint >> 8;`. -/
def packPoints (d : Driver) : Driver :=
  let d := storePwmData d 0 (Int.land d.onPoint 0xFF)
  let d := storePwmData d 1 (d.onPoint >>> (8 : Nat))
  let d := storePwmData d 2 (Int.land d.offPoint 0xFF)
  storePwmData d 3 (d.offPoint >>> (8 : Nat))

/-- The function `setPWMValue`. -/
def setPWMValue (DEBUG : Bool) (d : Driver) (channel pwmValue : Int) : Driver :=
  if channel ≥ NUM_PWM_CHANNELS then
    reportError DEBUG d invalidReadMsg
  else if (pwmValue : ℚ) * (d.pwmChannel channel).scaleFactor ≥ (MAX_I2C_PWM : ℚ) then
    let d := storePwmData d 0 0x00
    let d := storePwmData d 1 0x10
    let d := storePwmData d 2 0x00
    let d := storePwmData d 3 0x00
    let d := { d with dataLength := toChar 4 }
    sendPwmData d (d.pwmChannel channel).firstRegAddress
  else if pwmValue ≤ 0 then
    let d := storePwmData d 0 0x00
    let d := storePwmData d 1 0x00
    let d := storePwmData d 2 0x00
    let d := storePwmData d 3 0x10
    let d := { d with dataLength := toChar 4 }
    sendPwmData d (d.pwmChannel channel).firstRegAddress
  else
    let pwmValue := (pwmValue - ⌊(4096 : ℚ) / (d.pwmChannel channel).scaleFactor⌋) * -1
    let d := { d with onPoint :=
      ⌊(((pwmValue + (d.pwmChannel channel).pwmOffset : Int) : ℚ))
          * (d.pwmChannel channel).scaleFactor⌋ }
    let d := { d with offPoint :=
      ⌊((d.pwmChannel channel).pwmOffset : ℚ) * (d.pwmChannel channel).scaleFactor⌋ }
    let d := packPoints d
    let d := { d with dataLength := toChar 4 }
    sendPwmData d (d.pwmChannel channel).firstRegAddress

/-! ## `getPWMValue` -/

/-- The expression `readValue2 + readValue1` of `getPWMValue`, where `readValue1` is the
first byte read and `readValue2` is the second byte read, shifted left by 8. -/
def combineOnPoint (read1 read2 : Int) : Int :=
  let readValue1 := read1
  let readValue2 := read2 <<< (8 : Int)
  readValue2 + readValue1

/-- The function `getPWMValue`; `readMessage address reg` is what the call
`readMessage(address, reg)` returns. -/
def getPWMValue (DEBUG : Bool) (readMessage : Int → Int → Int) (d : Driver)
    (channel : Int) : Int × Driver :=
  if channel ≥ NUM_PWM_CHANNELS then
    (-1, reportError DEBUG d invalidChannelMsg)
  else
    let reg1 := (d.pwmChannel channel).firstRegAddress
    let d := { d with bus := d.bus ++ [BusEvent.readMessage PWM_SLAVE_ADDRESS reg1] }
    let reg2 := (d.pwmChannel channel).firstRegAddress + 1
    let d := { d with bus := d.bus ++ [BusEvent.readMessage PWM_SLAVE_ADDRESS reg2] }
    let raw := combineOnPoint (readMessage PWM_SLAVE_ADDRESS reg1)
      (readMessage PWM_SLAVE_ADDRESS reg2)
    (⌊((raw : ℚ) / (d.pwmChannel channel).scaleFactor)
        - ((d.pwmChannel channel).pwmOffset : ℚ)
        - ((4096 : ℚ) / (d.pwmChannel channel).scaleFactor) * -1⌋, d)

/-! ## `setPWMValues` and `getPWMValues` -/

/-- The loop `while (i < numChannels) { setPWMValue(channels[i], pwmValues[i]); i++; }` of
`setPWMValues`, entered with the counter at `i`. -/
def setPWMValuesLoop (DEBUG : Bool) (channels pwmValues : Int → Int) (numChannels : Int)
    (d : Driver) (i : Int) : Driver :=
  if h : i < numChannels then
    setPWMValuesLoop DEBUG channels pwmValues numChannels
      (setPWMValue DEBUG d (channels i) (pwmValues i)) (i + 1)
  else d
termination_by (numChannels - i).toNat
decreasing_by omega

/-- The function `setPWMValues`; the two arrays of the caller are maps from the index to
the cell. -/
def setPWMValues (DEBUG : Bool) (d : Driver) (channels pwmValues : Int → Int)
    (numChannels : Int) : Driver :=
  setPWMValuesLoop DEBUG channels pwmValues numChannels d 0

/-- The loop `while (i < numChannels) { pwmValues[i] = getPWMValue(channels[i]); i++; }` of
`getPWMValues`, entered with the counter at `i`; the buffer `pwmValues` of the caller is
passed along with the driver. -/
def getPWMValuesLoop (DEBUG : Bool) (readMessage : Int → Int → Int) (channels : Int → Int)
    (numChannels : Int) (pwmValues : Int → Int) (d : Driver) (i : Int) :
    (Int → Int) × Driver :=
  if h : i < numChannels then
    let r := getPWMValue DEBUG readMessage d (channels i)
    getPWMValuesLoop DEBUG readMessage channels numChannels
      (Function.update pwmValues i r.1) r.2 (i + 1)
  else (pwmValues, d)
termination_by (numChannels - i).toNat
decreasing_by omega

/-- The function `getPWMValues`; what it returns is the buffer `pwmValues` of the caller, as
the loop leaves it. -/
def getPWMValues (DEBUG : Bool) (readMessage : Int → Int → Int) (d : Driver)
    (channels : Int → Int) (numChannels : Int) (pwmValues : Int → Int) :
    (Int → Int) × Driver :=
  getPWMValuesLoop DEBUG readMessage channels numChannels pwmValues d 0

/-- An array of the caller holding the elements of `l` from index 0 on. -/
def cells (l : List Int) : Int → Int :=
  fun i => if 0 ≤ i then l.getD i.toNat 0 else 0

/-- A transport whose `readMessage` answers `low` for register 6 and `high` for register 7,
the two ON registers of channel 0, and 0 for every other register. -/
def channel0Reads (low high : Int) : Int → Int → Int :=
  fun _ reg => if reg = 6 then low else if reg = 7 then high else 0

/-- A driver after `initPWMInterface` found the board, started from the zeroed globals. -/
def initialised : Driver := initPWMInterface false 1 startup

/-! ## Arithmetic of the bit operations -/

theorem land_0xFF (v : Int) : Int.land v 0xFF = v % 256 := by
  cases v with
  | ofNat n =>
    show ((n &&& 255 : ℕ) : ℤ) = (n : ℤ) % 256
    have h := Nat.and_pow_two_sub_one_eq_mod n 8
    norm_num at h
    rw [h]
    norm_cast
  | negSucc n =>
    show ((Nat.ldiff 255 n : ℕ) : ℤ) = Int.negSucc n % 256
    rw [Int.negSucc_emod n (by norm_num)]
    have hlt : n % 2 ^ 8 < 2 ^ 8 := Nat.mod_lt _ (by norm_num)
    have key : Nat.ldiff 255 n = 2 ^ 8 - (n % 2 ^ 8 + 1) := by
      apply Nat.eq_of_testBit_eq
      intro i
      rw [Nat.testBit_ldiff, Nat.testBit_two_pow_sub_succ hlt, Nat.testBit_mod_two_pow]
      have h255 : (255 : ℕ) = 2 ^ 8 - 1 := by norm_num
      rw [h255, Nat.testBit_two_pow_sub_one]
      cases decide (i < 8) <;> simp
    rw [key]
    norm_num at hlt ⊢
    omega

theorem shiftRight_8 (v : Int) : v >>> (8 : Nat) = v / 256 := by
  rw [Int.shiftRight_eq_div_pow]; norm_num

theorem shiftLeft_8 (v : Int) : v <<< (8 : Int) = v * 256 := by
  have := Int.shiftLeft_eq_mul_pow v 8
  simpa using this


/-! ## Facts about the initialisation loop -/

theorem initLoop_bus (d : Driver) (i : Int) : (initLoop d i).bus = d.bus := by
  generalize h : (NUM_PWM_CHANNELS - i).toNat = n
  induction n generalizing d i with
  | zero =>
    rw [initLoop]
    simp only [NUM_PWM_CHANNELS] at h ⊢
    rw [dif_neg (by omega)]
  | succ n ih =>
    rw [initLoop]
    simp only [NUM_PWM_CHANNELS] at h ⊢
    rw [dif_pos (by omega)]
    rw [ih _ _ (by simp only [NUM_PWM_CHANNELS]; omega)]

theorem initLoop_pwmChannel (d : Driver) (i k : Int) :
    (initLoop d i).pwmChannel k =
      if i ≤ k ∧ k < NUM_PWM_CHANNELS then
        ⟨toChar ((4 * k) + 6), 0, 4⟩
      else d.pwmChannel k := by
  generalize h : (NUM_PWM_CHANNELS - i).toNat = n
  induction n generalizing d i with
  | zero =>
    rw [initLoop]
    simp only [NUM_PWM_CHANNELS] at h ⊢
    rw [dif_neg (by omega), if_neg (by omega)]
  | succ n ih =>
    rw [initLoop]
    simp only [NUM_PWM_CHANNELS] at h ⊢
    rw [dif_pos (by omega)]
    rw [ih _ _ (by simp only [NUM_PWM_CHANNELS]; omega)]
    simp only [NUM_PWM_CHANNELS]
    by_cases hk : k = i
    · subst hk
      rw [if_neg (by omega), if_pos (by omega)]
      simp [Function.update_same]
    · by_cases hk2 : i ≤ k ∧ k < 16
      · rw [if_pos (by omega), if_pos hk2]
      · rw [if_neg (by omega), if_neg hk2]
        simp [Function.update_noteq hk]



theorem initPWMInterface_pwmChannel (DEBUG : Bool) (present : Int) (d : Driver) (k : Int)
    (hp : present ≠ 0) :
    (initPWMInterface DEBUG present d).pwmChannel k =
      if 0 ≤ k ∧ k < NUM_PWM_CHANNELS then ⟨toChar ((4 * k) + 6), 0, 4⟩
      else d.pwmChannel k := by
  simp only [initPWMInterface, if_neg hp, initLoop_pwmChannel]

theorem initialised_pwmChannel (k : Int) :
    initialised.pwmChannel k =
      if 0 ≤ k ∧ k < NUM_PWM_CHANNELS then ⟨toChar ((4 * k) + 6), 0, 4⟩
      else ⟨0, 0, 0⟩ := by
  rw [initialised, initPWMInterface_pwmChannel _ _ _ _ (by decide)]
  rfl

/-! ## Settled properties -/

/-- C1 (round trip), evaluated where it fails: under the default calibration of channel 0
(offset 0, scale 4) the duty cycle 100 lies strictly between 1 and `floor(4096/4) - 1`,
`setPWMValue` takes the interior branch and writes the ON point 3696 as the bytes
`[0x70, 0x0E]`, and `getPWMValue` reading these two bytes back returns 1948, not 100. -/
theorem roundTrip_default_100 :
    (1 < (100 : Int) ∧ (100 : Int) < ⌊(4096 : ℚ) / (initialised.pwmChannel 0).scaleFactor⌋ - 1)
    ∧ (initialised.pwmChannel 0).pwmOffset = 0
    ∧ (setPWMValue false initialised 0 100).bus =
        initialised.bus ++ [BusEvent.sendMessage 0x80 6 [0x70, 0x0E, 0x00, 0x00] 4 '0']
    ∧ (getPWMValue false (channel0Reads 0x70 0x0E)
        initialised 0).1 = 1948 := by
  refine ⟨?_, ?_, ?_, ?_⟩
  · simp only [initialised_pwmChannel, NUM_PWM_CHANNELS]
    norm_num
  · simp only [initialised_pwmChannel, NUM_PWM_CHANNELS]
    norm_num
  · simp only [setPWMValue, initialised_pwmChannel, NUM_PWM_CHANNELS, MAX_I2C_PWM,
      PWM_SLAVE_ADDRESS, sendPwmData, packPoints, storePwmData, land_0xFF, shiftRight_8, toChar]
    norm_num [Function.update]
  · simp only [getPWMValue, initialised_pwmChannel, NUM_PWM_CHANNELS, combineOnPoint,
      shiftLeft_8, toChar, channel0Reads]
    norm_num



/-- With a negative scale factor, which the data model of the driver excludes, the full-on
test fires first for a duty cycle `<= 0`: scale -4 and duty cycle -1024 give the product
4096 and the payload `[0x00, 0x10, 0x00, 0x00]`. -/
theorem fullOff_fails_negative_scale :
    (-1024 : Int) ≤ 0
    ∧ (setPWMValue false (configurePWMOutput false initialised 0 0 (-4)) 0 (-1024)).bus =
        (configurePWMOutput false initialised 0 0 (-4)).bus ++
          [BusEvent.sendMessage 0x80 6 [0x00, 0x10, 0x00, 0x00] 4 '0'] := by
  refine ⟨by decide, ?_⟩
  simp only [setPWMValue, configurePWMOutput, initialised_pwmChannel, NUM_PWM_CHANNELS,
    MAX_I2C_PWM, PWM_SLAVE_ADDRESS, sendPwmData, storePwmData, toChar]
  norm_num [Function.update]

/-- C2: for every valid channel, every phase offset, every scale factor of the data model
(`s >= 0` is enough) and every duty cycle `x <= 0`, `setPWMValue` issues one write whose
payload is the full-off payload `[0x00, 0x00, 0x00, 0x10]`.  The product `x * s` is `<= 0`,
also after rounding, so the full-on test made first cannot fire. -/
theorem setPWMValue_fullOff (DEBUG : Bool) (d : Driver) (channel pwmValue : Int)
    (_hc0 : 0 ≤ channel) (hc : channel < NUM_PWM_CHANNELS) (hx : pwmValue ≤ 0)
    (hs : 0 ≤ (d.pwmChannel channel).scaleFactor) :
    ∃ reg : Int, (setPWMValue DEBUG d channel pwmValue).bus =
      d.bus ++ [BusEvent.sendMessage PWM_SLAVE_ADDRESS reg [0x00, 0x00, 0x00, 0x10] 4 '0'] := by
  have hlt : ¬ (pwmValue : ℚ) * (d.pwmChannel channel).scaleFactor ≥ (MAX_I2C_PWM : ℚ) := by
    simp only [MAX_I2C_PWM, ge_iff_le, not_le]
    have hx' : (pwmValue : ℚ) ≤ 0 := by exact_mod_cast hx
    have := mul_nonpos_of_nonpos_of_nonneg hx' hs
    norm_num
    linarith
  refine ⟨(d.pwmChannel channel).firstRegAddress, ?_⟩
  unfold setPWMValue
  rw [if_neg (not_le.mpr hc), if_neg hlt, if_pos hx]
  simp [sendPwmData, storePwmData, toChar, Function.update]

/-- Witness of `setPWMValue_fullOff`: channel 5 of the initialised driver (scale 4), duty
cycle 0. -/
theorem setPWMValue_fullOff_witness :
    ∃ reg : Int, (setPWMValue false initialised 5 0).bus =
      initialised.bus ++
        [BusEvent.sendMessage PWM_SLAVE_ADDRESS reg [0x00, 0x00, 0x00, 0x10] 4 '0'] :=
  setPWMValue_fullOff false initialised 5 0 (by decide) (by decide) (by decide)
    (by rw [initialised_pwmChannel]; norm_num [NUM_PWM_CHANNELS])

theorem lt_NUM_of_lt_declared (channel : Int) (h : channel < pwmChannelDeclaredLength) :
    channel < NUM_PWM_CHANNELS := by
  simp only [pwmChannelDeclaredLength, NUM_PWM_CHANNELS] at h ⊢
  omega

/-- C3, for the channels inside the declared table (`0 .. 14`): for every duty cycle `x`
with `x * scaleFactor >= 4096`, `setPWMValue` issues one 4-byte write of the full-on payload
`[0x00, 0x10, 0x00, 0x00]` starting at the channel's base register.  (Rounding is monotone
and keeps 4096, so the product as the code computes it is `>= 4096` as well.)  Channel 15
lies outside the declaration of `pwmChannel` and is left out. -/
theorem setPWMValue_fullOn (DEBUG : Bool) (d : Driver) (channel pwmValue : Int)
    (_hc0 : 0 ≤ channel) (hc : channel < pwmChannelDeclaredLength)
    (hx : (pwmValue : ℚ) * (d.pwmChannel channel).scaleFactor ≥ 4096) :
    (setPWMValue DEBUG d channel pwmValue).bus =
      d.bus ++ [BusEvent.sendMessage PWM_SLAVE_ADDRESS (d.pwmChannel channel).firstRegAddress
        [0x00, 0x10, 0x00, 0x00] 4 '0'] := by
  have hge : (pwmValue : ℚ) * (d.pwmChannel channel).scaleFactor ≥ (MAX_I2C_PWM : ℚ) := by
    simp only [MAX_I2C_PWM]
    norm_num
    exact hx
  unfold setPWMValue
  rw [if_neg (not_le.mpr (lt_NUM_of_lt_declared channel hc)), if_pos hge]
  simp [sendPwmData, storePwmData, toChar, Function.update]

/-- Witness of `setPWMValue_fullOn`: channel 2 of the initialised driver (scale 4), duty
cycle 1024. -/
theorem setPWMValue_fullOn_witness :
    ((1024 : Int) : ℚ) * (initialised.pwmChannel 2).scaleFactor ≥ 4096
    ∧ (setPWMValue false initialised 2 1024).bus =
      initialised.bus ++ [BusEvent.sendMessage PWM_SLAVE_ADDRESS
        (initialised.pwmChannel 2).firstRegAddress [0x00, 0x10, 0x00, 0x00] 4 '0'] :=
  ⟨by rw [initialised_pwmChannel]; norm_num [NUM_PWM_CHANNELS],
   setPWMValue_fullOn false initialised 2 1024 (by decide) (by decide)
    (by rw [initialised_pwmChannel]; norm_num [NUM_PWM_CHANNELS])⟩

theorem testBit_4_of_lt_16 (b : Int) (h0 : 0 ≤ b) (h1 : b < 16) : Int.testBit b 4 = false := by
  interval_cases b <;> decide

/-- C4, as stated, fails: channel 0 configured with offset 1024 and scale 4 and the duty
cycle 1 take the interior branch with ON point `(1023 + 1024) * 4 = 8188 = 0x1FFC` and OFF
point `1024 * 4 = 4096 = 0x1000`; the payload is `[0xFC, 0x1F, 0x00, 0x10]`, whose bytes 1
and 3 both have bit 4 set. -/
theorem overrideBits_both_set :
    (setPWMValue false (configurePWMOutput false initialised 0 1024 4) 0 1).bus =
        (configurePWMOutput false initialised 0 1024 4).bus ++
          [BusEvent.sendMessage 0x80 6 [0xFC, 0x1F, 0x00, 0x10] 4 '0']
    ∧ Int.testBit 0x1F 4 = true ∧ Int.testBit 0x10 4 = true := by
  refine ⟨?_, by decide, by decide⟩
  simp only [setPWMValue, configurePWMOutput, initialised_pwmChannel, NUM_PWM_CHANNELS,
    MAX_I2C_PWM, PWM_SLAVE_ADDRESS, sendPwmData, packPoints, storePwmData, land_0xFF,
    shiftRight_8, toChar]
  norm_num [Function.update]

/-- C4, amended: for every channel inside the declared table (`0 .. 14`) whose phase
offset is 0 (the value `initPWMInterface` gives it), every scale factor and every duty
cycle, `setPWMValue` issues one write of the four cells of `pwmData`, and bit 4 of byte 1
and bit 4 of byte 3 are not both set: the OFF point is `floor(0 * scaleFactor) = 0`, whatever
the rounding, so byte 3 is `0x00` outside the full-off branch. -/
theorem setPWMValue_overrideBits_exclusive (DEBUG : Bool) (d : Driver)
    (channel pwmValue : Int) (_hc0 : 0 ≤ channel) (hc : channel < pwmChannelDeclaredLength)
    (ho : (d.pwmChannel channel).pwmOffset = 0) :
    (setPWMValue DEBUG d channel pwmValue).bus =
      d.bus ++ [BusEvent.sendMessage PWM_SLAVE_ADDRESS (d.pwmChannel channel).firstRegAddress
        [(setPWMValue DEBUG d channel pwmValue).pwmData 0,
         (setPWMValue DEBUG d channel pwmValue).pwmData 1,
         (setPWMValue DEBUG d channel pwmValue).pwmData 2,
         (setPWMValue DEBUG d channel pwmValue).pwmData 3] 4 '0']
    ∧ ¬ (Int.testBit ((setPWMValue DEBUG d channel pwmValue).pwmData 1) 4 = true
        ∧ Int.testBit ((setPWMValue DEBUG d channel pwmValue).pwmData 3) 4 = true) := by
  have hoff : ⌊((d.pwmChannel channel).pwmOffset : ℚ) * (d.pwmChannel channel).scaleFactor⌋
      = 0 := by
    rw [ho]
    norm_num
  unfold setPWMValue
  rw [if_neg (not_le.mpr (lt_NUM_of_lt_declared channel hc))]
  split_ifs with h1 h2
  · refine ⟨by simp [sendPwmData, storePwmData, toChar, Function.update], ?_⟩
    simp only [sendPwmData, storePwmData, toChar, Function.update]
    norm_num
    intro _
    decide
  · refine ⟨by simp [sendPwmData, storePwmData, toChar, Function.update], ?_⟩
    simp only [sendPwmData, storePwmData, toChar, Function.update]
    norm_num
    intro h
    exact absurd h (by decide)
  · refine ⟨by simp [sendPwmData, packPoints, storePwmData, toChar, Function.update], ?_⟩
    rintro ⟨-, h3⟩
    have hb : Int.testBit (⌊((d.pwmChannel channel).pwmOffset : ℚ)
        * (d.pwmChannel channel).scaleFactor⌋ / 256 % 256) 4 = false := by
      rw [hoff]
      decide
    simp [sendPwmData, packPoints, storePwmData, toChar, Function.update, shiftRight_8] at h3
    rw [hb] at h3
    exact Bool.noConfusion h3

/-- Witness of `setPWMValue_overrideBits_exclusive`: channel 0 of the initialised driver
(offset 0, scale 4), duty cycle 100. -/
theorem setPWMValue_overrideBits_exclusive_witness :
    (setPWMValue false initialised 0 100).bus =
      initialised.bus ++ [BusEvent.sendMessage PWM_SLAVE_ADDRESS
        (initialised.pwmChannel 0).firstRegAddress
        [(setPWMValue false initialised 0 100).pwmData 0,
         (setPWMValue false initialised 0 100).pwmData 1,
         (setPWMValue false initialised 0 100).pwmData 2,
         (setPWMValue false initialised 0 100).pwmData 3] 4 '0']
    ∧ ¬ (Int.testBit ((setPWMValue false initialised 0 100).pwmData 1) 4 = true
        ∧ Int.testBit ((setPWMValue false initialised 0 100).pwmData 3) 4 = true) :=
  setPWMValue_overrideBits_exclusive false initialised 0 100 (by decide) (by decide)
    (by rw [initialised_pwmChannel]; norm_num [NUM_PWM_CHANNELS])

/-- C5: for every ON point `v` in `[0, 4095]` the packing of `setPWMValue` stores the low
byte `v & 0xFF` in `pwmData[0]` and the high byte `v >> 8` in `pwmData[1]` (`0x0FA3` gives
`0xA3`, `0x0F`), and the recombination of `getPWMValue` (`low + (high << 8)`) applied to
these two bytes gives `v` again. -/
theorem packPoints_combineOnPoint (d : Driver) (h0 : 0 ≤ d.onPoint) (h1 : d.onPoint ≤ 4095) :
    (packPoints d).pwmData 0 = Int.land d.onPoint 0xFF
    ∧ (packPoints d).pwmData 1 = d.onPoint >>> (8 : Nat)
    ∧ combineOnPoint ((packPoints d).pwmData 0) ((packPoints d).pwmData 1) = d.onPoint := by
  have e0 : (packPoints d).pwmData 0 = d.onPoint % 256 := by
    simp [packPoints, storePwmData, toChar, Function.update, land_0xFF]
  have e1 : (packPoints d).pwmData 1 = d.onPoint / 256 := by
    simp only [packPoints, storePwmData, toChar, Function.update, shiftRight_8]
    norm_num
    omega
  refine ⟨?_, ?_, ?_⟩
  · rw [e0, land_0xFF]
  · rw [e1, shiftRight_8]
  · rw [e0, e1]
    simp only [combineOnPoint, shiftLeft_8]
    omega

/-- Witness of `packPoints_combineOnPoint`: the ON point `0x0FA3` is packed as
`[0xA3, 0x0F]` and recombined to `0x0FA3`. -/
theorem packPoints_combineOnPoint_witness :
    ((packPoints { startup with onPoint := 0x0FA3 }).pwmData 0 = Int.land 0x0FA3 0xFF
      ∧ (packPoints { startup with onPoint := 0x0FA3 }).pwmData 1 = (0x0FA3 : Int) >>> (8 : Nat)
      ∧ combineOnPoint ((packPoints { startup with onPoint := 0x0FA3 }).pwmData 0)
          ((packPoints { startup with onPoint := 0x0FA3 }).pwmData 1) = 0x0FA3)
    ∧ Int.land 0x0FA3 0xFF = 0xA3 ∧ (0x0FA3 : Int) >>> (8 : Nat) = 0x0F
    ∧ combineOnPoint 0xA3 0x0F = 0x0FA3 :=
  ⟨packPoints_combineOnPoint { startup with onPoint := 0x0FA3 } (by decide) (by decide),
   by decide, by decide, by decide⟩



/-- For a channel index of `NUM_PWM_CHANNELS` or more `getPWMValue` returns -1 and makes no
transport call: the trace grows by the `error` report at most. -/
theorem getPWMValue_too_large (DEBUG : Bool) (readMessage : Int → Int → Int) (d : Driver)
    (channel : Int) (hc : channel ≥ NUM_PWM_CHANNELS) :
    getPWMValue DEBUG readMessage d channel = (-1, reportError DEBUG d invalidChannelMsg) := by
  unfold getPWMValue
  rw [if_pos hc]

/-- C7, evaluated where it fails: the channel index -1 is outside `[0, 16)` but passes the
test `channel >= NUM_PWM_CHANNELS`; `getPWMValue` reports no error and issues the two
`readMessage` calls, at the register address held in the cell `pwmChannel[-1]` and at the
next one. -/
theorem getPWMValue_negative_reads (DEBUG : Bool) (readMessage : Int → Int → Int)
    (d : Driver) :
    ¬ ((0 : Int) ≤ -1 ∧ (-1 : Int) < NUM_PWM_CHANNELS)
    ∧ (getPWMValue DEBUG readMessage d (-1)).2.bus =
      d.bus ++ [BusEvent.readMessage PWM_SLAVE_ADDRESS (d.pwmChannel (-1)).firstRegAddress,
        BusEvent.readMessage PWM_SLAVE_ADDRESS ((d.pwmChannel (-1)).firstRegAddress + 1)] := by
  refine ⟨by decide, ?_⟩
  unfold getPWMValue
  rw [if_neg (by decide)]
  simp

/-- For a channel index of `NUM_PWM_CHANNELS` or more `configurePWMOutput` changes no
global: the trace grows by the `error` report at most. -/
theorem configurePWMOutput_too_large (DEBUG : Bool) (d : Driver) (channel offsetValue : Int)
    (scaleValue : ℚ) (hc : channel ≥ NUM_PWM_CHANNELS) :
    configurePWMOutput DEBUG d channel offsetValue scaleValue
      = reportError DEBUG d invalidChannelMsg := by
  unfold configurePWMOutput
  rw [if_pos hc]

/-- C8, evaluated where it fails: the channel index -1 is outside `[0, 16)` but passes the
test `channel >= NUM_PWM_CHANNELS`; `configurePWMOutput` reports no error and stores the
offset and the scale through `pwmChannel[-1]`, a cell in front of the table. -/
theorem configurePWMOutput_negative_stores (DEBUG : Bool) (d : Driver) (offsetValue : Int)
    (scaleValue : ℚ) :
    ¬ ((0 : Int) ≤ -1 ∧ (-1 : Int) < NUM_PWM_CHANNELS)
    ∧ (configurePWMOutput DEBUG d (-1) offsetValue scaleValue).bus = d.bus
    ∧ ((configurePWMOutput DEBUG d (-1) offsetValue scaleValue).pwmChannel (-1)).pwmOffset
        = offsetValue
    ∧ ((configurePWMOutput DEBUG d (-1) offsetValue scaleValue).pwmChannel (-1)).scaleFactor
        = scaleValue := by
  refine ⟨by decide, ?_⟩
  unfold configurePWMOutput
  rw [if_neg (by decide)]
  simp

/-- C9, as stated, fails: on the initialised table `configurePWMOutput(0, 0, -1)` is not
rejected; the scale factor of channel 0 goes from 4 to -1 and is no longer positive. -/
theorem configurePWMOutput_accepts_negative_scale :
    (initialised.pwmChannel 0).scaleFactor = 4
    ∧ (-1 : ℚ) ≤ 0
    ∧ ((configurePWMOutput false initialised 0 0 (-1)).pwmChannel 0).scaleFactor = -1
    ∧ ¬ (0 < ((configurePWMOutput false initialised 0 0 (-1)).pwmChannel 0).scaleFactor) := by
  have h : ((configurePWMOutput false initialised 0 0 (-1)).pwmChannel 0).scaleFactor = -1 := by
    simp [configurePWMOutput, NUM_PWM_CHANNELS]
  refine ⟨?_, by norm_num, h, ?_⟩
  · rw [initialised_pwmChannel]
    norm_num [NUM_PWM_CHANNELS]
  · rw [h]
    norm_num

/-- C9, amended: for every valid channel and every scale value, `configurePWMOutput` stores
the scale value as that channel's scale factor, whatever its sign; when the scale value is
positive and every channel of `[0, 16)` had a positive scale factor before the call (as
after `initPWMInterface`), every channel of `[0, 16)` has a positive scale factor after
it. -/
theorem configurePWMOutput_scaleFactor (DEBUG : Bool) (d : Driver)
    (channel offsetValue : Int) (scaleValue : ℚ)
    (_hc0 : 0 ≤ channel) (hc : channel < NUM_PWM_CHANNELS) :
    ((configurePWMOutput DEBUG d channel offsetValue scaleValue).pwmChannel channel).scaleFactor
      = scaleValue
    ∧ (0 < scaleValue →
        (∀ k : Int, 0 ≤ k → k < NUM_PWM_CHANNELS → 0 < (d.pwmChannel k).scaleFactor) →
        ∀ k : Int, 0 ≤ k → k < NUM_PWM_CHANNELS →
          0 < ((configurePWMOutput DEBUG d channel offsetValue scaleValue).pwmChannel
                k).scaleFactor) := by
  unfold configurePWMOutput
  rw [if_neg (not_le.mpr hc)]
  refine ⟨by simp, ?_⟩
  intro hs hinv k hk0 hk1
  by_cases hk : k = channel
  · subst hk
    simpa using hs
  · simpa [Function.update_noteq hk] using hinv k hk0 hk1

/-- Witness of `configurePWMOutput_scaleFactor`: channel 3 of the initialised driver,
offset 0, scale 2; the scale factor read afterwards is that of channel 3 and of channel 7. -/
theorem configurePWMOutput_scaleFactor_witness :
    ((configurePWMOutput false initialised 3 0 2).pwmChannel 3).scaleFactor = 2
    ∧ 0 < ((configurePWMOutput false initialised 3 0 2).pwmChannel 7).scaleFactor :=
  ⟨(configurePWMOutput_scaleFactor false initialised 3 0 2 (by decide) (by decide)).1,
   (configurePWMOutput_scaleFactor false initialised 3 0 2 (by decide) (by decide)).2
    (by norm_num)
    (fun k hk0 hk1 => by rw [initialised_pwmChannel, if_pos ⟨hk0, hk1⟩]; norm_num)
    7 (by decide) (by decide)⟩

/-- For a channel index of `NUM_PWM_CHANNELS` or more `setPWMValue` changes no global and
makes no transport call: the trace grows by the `error` report at most. -/
theorem setPWMValue_too_large (DEBUG : Bool) (d : Driver) (channel pwmValue : Int)
    (hc : channel ≥ NUM_PWM_CHANNELS) :
    setPWMValue DEBUG d channel pwmValue = reportError DEBUG d invalidReadMsg := by
  unfold setPWMValue
  rw [if_pos hc]

/-- C10, evaluated where it fails: the channel index -1 is outside `[0, 16)` but passes the
test `channel >= NUM_PWM_CHANNELS`; `setPWMValue(-1, 0)` is not skipped: it reports no error
and issues a transport write of the full-off payload at the register address held in the
cell `pwmChannel[-1]`. -/
theorem setPWMValue_negative_writes (DEBUG : Bool) (d : Driver) :
    ¬ ((0 : Int) ≤ -1 ∧ (-1 : Int) < NUM_PWM_CHANNELS)
    ∧ (setPWMValue DEBUG d (-1) 0).bus =
      d.bus ++ [BusEvent.sendMessage PWM_SLAVE_ADDRESS (d.pwmChannel (-1)).firstRegAddress
        [0x00, 0x00, 0x00, 0x10] 4 '0'] := by
  refine ⟨by decide, ?_⟩
  unfold setPWMValue
  rw [if_neg (by decide), if_neg (by simp [MAX_I2C_PWM]), if_pos (le_refl 0)]
  simp [sendPwmData, storePwmData, toChar, Function.update]



/-! ### The batch operations -/

theorem setPWMValuesLoop_eq_foldl (DEBUG : Bool) (channels pwmValues : Int → Int) (m : Nat) :
    ∀ (i : Int) (d : Driver),
      setPWMValuesLoop DEBUG channels pwmValues (i + m) d i =
        (List.range m).foldl
          (fun (d : Driver) (j : Nat) =>
            setPWMValue DEBUG d (channels (i + (j : Int))) (pwmValues (i + (j : Int)))) d := by
  induction m with
  | zero =>
    intro i d
    rw [setPWMValuesLoop, dif_neg (by simp)]
    rfl
  | succ m ih =>
    intro i d
    rw [setPWMValuesLoop, dif_pos (by push_cast; omega)]
    have e : i + ((m + 1 : ℕ) : ℤ) = (i + 1) + (m : ℤ) := by push_cast; ring
    rw [e, ih, List.range_succ_eq_map, List.foldl_cons, List.foldl_map]
    simp only [Nat.cast_zero, add_zero, Nat.cast_succ]
    congr 1
    funext d j
    rw [show i + 1 + (j : ℤ) = i + ((j : ℤ) + 1) by ring]

theorem setPWMValues_eq_foldl (DEBUG : Bool) (d : Driver) (channels pwmValues : Int → Int)
    (numChannels : Int) :
    setPWMValues DEBUG d channels pwmValues numChannels =
      (List.range numChannels.toNat).foldl
        (fun (d : Driver) (j : Nat) =>
          setPWMValue DEBUG d (channels (j : Int)) (pwmValues (j : Int))) d := by
  unfold setPWMValues
  by_cases hn : 0 ≤ numChannels
  · have h := setPWMValuesLoop_eq_foldl DEBUG channels pwmValues numChannels.toNat 0 d
    simp only [zero_add, Int.toNat_of_nonneg hn] at h
    exact h
  · rw [setPWMValuesLoop, dif_neg (by omega)]
    have : numChannels.toNat = 0 := by omega
    rw [this]
    rfl

/-- The example of C11: on the initialised driver `setPWMValues([2,5],[1024,0],2)` issues the
full-on write at register 14 (channel 2) and then the full-off write at register 26
(channel 5), the writes of `setPWMValue(2,1024)` followed by `setPWMValue(5,0)`. -/
theorem setPWMValues_example :
    (setPWMValues false initialised (cells [2, 5]) (cells [1024, 0]) 2).bus =
      initialised.bus ++
        [BusEvent.sendMessage 0x80 14 [0x00, 0x10, 0x00, 0x00] 4 '0',
         BusEvent.sendMessage 0x80 26 [0x00, 0x00, 0x00, 0x10] 4 '0']
    ∧ (setPWMValue false (setPWMValue false initialised 2 1024) 5 0).bus =
      initialised.bus ++
        [BusEvent.sendMessage 0x80 14 [0x00, 0x10, 0x00, 0x00] 4 '0',
         BusEvent.sendMessage 0x80 26 [0x00, 0x00, 0x00, 0x10] 4 '0'] := by
  have h : (setPWMValue false (setPWMValue false initialised 2 1024) 5 0).bus =
      initialised.bus ++
        [BusEvent.sendMessage 0x80 14 [0x00, 0x10, 0x00, 0x00] 4 '0',
         BusEvent.sendMessage 0x80 26 [0x00, 0x00, 0x00, 0x10] 4 '0'] := by
    simp only [setPWMValue, initialised_pwmChannel, NUM_PWM_CHANNELS, MAX_I2C_PWM,
      PWM_SLAVE_ADDRESS, sendPwmData, storePwmData, toChar]
    norm_num [Function.update]
    rw [initialised_pwmChannel]
    norm_num [NUM_PWM_CHANNELS, toChar]
  refine ⟨?_, h⟩
  rw [setPWMValues_eq_foldl]
  simp only [List.range, List.range.loop, List.foldl, cells]
  norm_num
  exact h



theorem getPWMValue_pwmChannel (DEBUG : Bool) (readMessage : Int → Int → Int) (d : Driver)
    (channel : Int) :
    (getPWMValue DEBUG readMessage d channel).2.pwmChannel = d.pwmChannel := by
  unfold getPWMValue
  split_ifs
  · simp only [reportError]
    split_ifs <;> rfl
  · rfl

theorem getPWMValue_value_congr (DEBUG : Bool) (readMessage : Int → Int → Int)
    (d e : Driver) (channel : Int) (h : e.pwmChannel = d.pwmChannel) :
    (getPWMValue DEBUG readMessage e channel).1 = (getPWMValue DEBUG readMessage d channel).1 := by
  unfold getPWMValue
  split_ifs
  · rfl
  · simp only [h]

theorem getPWMValuesLoop_buffer (DEBUG : Bool) (readMessage : Int → Int → Int)
    (d : Driver) (channels : Int → Int) (m : Nat) :
    ∀ (i : Int) (pwmValues : Int → Int) (e : Driver), e.pwmChannel = d.pwmChannel →
      ∀ k : Int,
        (getPWMValuesLoop DEBUG readMessage channels (i + m) pwmValues e i).1 k =
          if i ≤ k ∧ k < i + m then (getPWMValue DEBUG readMessage d (channels k)).1
          else pwmValues k := by
  induction m with
  | zero =>
    intro i pwmValues e _ k
    rw [getPWMValuesLoop, dif_neg (by simp), if_neg (by push_cast; omega)]
  | succ m ih =>
    intro i pwmValues e he k
    rw [getPWMValuesLoop, dif_pos (by push_cast; omega)]
    have e1 : i + ((m + 1 : ℕ) : ℤ) = (i + 1) + (m : ℤ) := by push_cast; ring
    simp only []
    rw [e1, ih _ _ _ (by rw [getPWMValue_pwmChannel, he])]
    by_cases hk : k = i
    · subst hk
      rw [if_neg (by omega), if_pos (by omega), Function.update_same,
        getPWMValue_value_congr DEBUG readMessage d e _ he]
    · rw [Function.update_noteq hk]
      by_cases hk2 : i + 1 ≤ k ∧ k < i + 1 + (m : ℤ)
      · rw [if_pos hk2, if_pos (by omega)]
      · rw [if_neg hk2, if_neg (by omega)]

/-- C12: for every array `channels`, every `numChannels` and every buffer `pwmValues`, the
buffer `getPWMValues` returns holds at every index `i` with `0 <= i < numChannels` the value
`getPWMValue(channels[i])` returns on the same register contents, and is the buffer passed
in everywhere else. -/
theorem getPWMValues_elementwise (DEBUG : Bool) (readMessage : Int → Int → Int) (d : Driver)
    (channels : Int → Int) (numChannels : Int) (pwmValues : Int → Int) (i : Int) :
    (getPWMValues DEBUG readMessage d channels numChannels pwmValues).1 i =
      if 0 ≤ i ∧ i < numChannels then (getPWMValue DEBUG readMessage d (channels i)).1
      else pwmValues i := by
  unfold getPWMValues
  by_cases hn : 0 ≤ numChannels
  · have h := getPWMValuesLoop_buffer DEBUG readMessage d channels numChannels.toNat 0
      pwmValues d rfl i
    simp only [zero_add, Int.toNat_of_nonneg hn] at h
    exact h
  · rw [getPWMValuesLoop, dif_neg (by omega), if_neg (by omega)]



/-! ### Initialisation and reset -/

/-- C13, for the channels inside the declared table: after `initPWMInterface` has run with
the device present (`checkDevicePresence` returned a value other than 0), every channel `k`
with `0 <= k < 15` has base register address `4k + 6`, phase offset 0 and scale factor 4.
The loop also stores at `k = 15`, outside the declaration of `pwmChannel`; that cell is left
out here. -/
theorem initPWMInterface_table (DEBUG : Bool) (present : Int) (d : Driver) (k : Int)
    (hp : present ≠ 0) (hk0 : 0 ≤ k) (hk1 : k < pwmChannelDeclaredLength) :
    (initPWMInterface DEBUG present d).pwmChannel k = ⟨4 * k + 6, 0, 4⟩ := by
  rw [initPWMInterface_pwmChannel DEBUG present d k hp,
    if_pos ⟨hk0, lt_NUM_of_lt_declared k hk1⟩]
  simp only [pwmChannelDeclaredLength, NUM_PWM_CHANNELS] at hk1
  have e : toChar (4 * k + 6) = 4 * k + 6 := by
    unfold toChar
    omega
  rw [e]

/-- Witness of `initPWMInterface_table`: from the zeroed globals, with the device answering
1, channel 14 holds base register 62, offset 0 and scale 4. -/
theorem initPWMInterface_table_witness :
    (initPWMInterface false 1 startup).pwmChannel 14 = ⟨4 * 14 + 6, 0, 4⟩ :=
  initPWMInterface_table false 1 startup 14 (by decide) (by decide) (by decide)

/-- C14, evaluated: `resetPWMInterface` issues one `sendMessage` of the byte `0xA1` to
register `0x00`, and sets `dataLength` to 1, but the length it passes to `sendMessage` is
the character constant `'1'`, which is 49, not 1. -/
theorem resetPWMInterface_length (d : Driver) :
    (resetPWMInterface d).bus =
      d.bus ++ [BusEvent.sendMessage PWM_SLAVE_ADDRESS 0x00 [0xA1] 49 '0']
    ∧ (resetPWMInterface d).dataLength = 1
    ∧ (49 : Int) ≠ 1 := by
  refine ⟨?_, ?_, by decide⟩
  · have h49 : ((Char.toNat '1' : Nat) : Int) = 49 := by decide
    simp only [resetPWMInterface, toChar, h49]
    norm_num
  · simp only [resetPWMInterface, toChar]
    norm_num



/-! ### The interior branch of `setPWMValue` -/

/-- C15, evaluated where it fails: with channel 0 configured to offset 0 and scale 3, the
duty cycle 1365 is interior (`1365 * 3 = 4095 < 4096` and `1365 > 0`), and `setPWMValue`
computes `floor(4096/3) - 1365 = 0`, so ON point and OFF point are both 0 and the payload
written is `[0x00, 0x00, 0x00, 0x00]`. -/
theorem interior_onPoint_eq_offPoint :
    (0 : ℚ) < ((configurePWMOutput false initialised 0 0 3).pwmChannel 0).scaleFactor
    ∧ ¬ ((1365 : Int) : ℚ) * ((configurePWMOutput false initialised 0 0 3).pwmChannel 0).scaleFactor
          ≥ (MAX_I2C_PWM : ℚ)
    ∧ ¬ (1365 : Int) ≤ 0
    ∧ (setPWMValue false (configurePWMOutput false initialised 0 0 3) 0 1365).onPoint = 0
    ∧ (setPWMValue false (configurePWMOutput false initialised 0 0 3) 0 1365).offPoint = 0
    ∧ (setPWMValue false (configurePWMOutput false initialised 0 0 3) 0 1365).bus =
        (configurePWMOutput false initialised 0 0 3).bus ++
          [BusEvent.sendMessage 0x80 6 [0x00, 0x00, 0x00, 0x00] 4 '0'] := by
  have hs : ((configurePWMOutput false initialised 0 0 3).pwmChannel 0).scaleFactor = 3 := by
    simp [configurePWMOutput, NUM_PWM_CHANNELS]
  refine ⟨by rw [hs]; norm_num, by rw [hs]; norm_num [MAX_I2C_PWM], by decide, ?_, ?_, ?_⟩
  · simp only [setPWMValue, configurePWMOutput, initialised_pwmChannel, NUM_PWM_CHANNELS,
      MAX_I2C_PWM, PWM_SLAVE_ADDRESS, sendPwmData, packPoints, storePwmData, land_0xFF,
      shiftRight_8, toChar]
    norm_num [Function.update]
  · simp only [setPWMValue, configurePWMOutput, initialised_pwmChannel, NUM_PWM_CHANNELS,
      MAX_I2C_PWM, PWM_SLAVE_ADDRESS, sendPwmData, packPoints, storePwmData, land_0xFF,
      shiftRight_8, toChar]
    norm_num [Function.update]
  · simp only [setPWMValue, configurePWMOutput, initialised_pwmChannel, NUM_PWM_CHANNELS,
      MAX_I2C_PWM, PWM_SLAVE_ADDRESS, sendPwmData, packPoints, storePwmData, land_0xFF,
      shiftRight_8, toChar]
    norm_num [Function.update]

/-- C17: for every valid channel `c` and every offset and scale, `configurePWMOutput(c,
offset, scale)` sets the phase offset and the scale factor of channel `c` to the values
passed, keeps the base register address of channel `c`, and keeps every field of every other
channel. -/
theorem configurePWMOutput_frame (DEBUG : Bool) (d : Driver) (channel offsetValue : Int)
    (scaleValue : ℚ) (_hc0 : 0 ≤ channel) (hc : channel < NUM_PWM_CHANNELS) :
    (configurePWMOutput DEBUG d channel offsetValue scaleValue).pwmChannel channel
        = ⟨(d.pwmChannel channel).firstRegAddress, offsetValue, scaleValue⟩
    ∧ ∀ k : Int, k ≠ channel →
        (configurePWMOutput DEBUG d channel offsetValue scaleValue).pwmChannel k
          = d.pwmChannel k := by
  unfold configurePWMOutput
  rw [if_neg (not_le.mpr hc)]
  refine ⟨by simp, ?_⟩
  intro k hk
  simp [Function.update_noteq hk]

/-- Witness of `configurePWMOutput_frame`: channel 3 of the initialised driver, offset 7,
scale 2; the other channel read is channel 4. -/
theorem configurePWMOutput_frame_witness :
    (configurePWMOutput false initialised 3 7 2).pwmChannel 3
        = ⟨(initialised.pwmChannel 3).firstRegAddress, 7, 2⟩
    ∧ (configurePWMOutput false initialised 3 7 2).pwmChannel 4 = initialised.pwmChannel 4 :=
  ⟨(configurePWMOutput_frame false initialised 3 7 2 (by decide) (by decide)).1,
   (configurePWMOutput_frame false initialised 3 7 2 (by decide) (by decide)).2 4 (by decide)⟩



/-- C18, for the channels inside the declared table (`0 .. 14`): under the default
calibration (phase offset 0, scale factor 4), for every duty cycle `x` with
`1 <= x <= 1023`, `setPWMValue` takes the interior branch: it sets `onPoint = 4096 - 4x`,
which lies in `[4, 4092]`, and `offPoint = 0`, and writes the payload
`[(4096-4x) & 0xFF, (4096-4x) >> 8, 0x00, 0x00]` at the base register; bit 4 of byte 1 and
bit 4 of byte 3 are clear.  All values are small integers, exact in binary32.  Channel 15
lies outside the declaration of `pwmChannel` and is left out. -/
theorem setPWMValue_default_interior (DEBUG : Bool) (d : Driver) (channel x : Int)
    (_hc0 : 0 ≤ channel) (hc : channel < pwmChannelDeclaredLength)
    (ho : (d.pwmChannel channel).pwmOffset = 0)
    (hs : (d.pwmChannel channel).scaleFactor = 4)
    (hx0 : 1 ≤ x) (hx1 : x ≤ 1023) :
    (setPWMValue DEBUG d channel x).onPoint = 4096 - 4 * x
    ∧ 4 ≤ (setPWMValue DEBUG d channel x).onPoint
    ∧ (setPWMValue DEBUG d channel x).onPoint ≤ 4092
    ∧ (setPWMValue DEBUG d channel x).offPoint = 0
    ∧ (setPWMValue DEBUG d channel x).bus =
        d.bus ++ [BusEvent.sendMessage PWM_SLAVE_ADDRESS (d.pwmChannel channel).firstRegAddress
          [Int.land (4096 - 4 * x) 0xFF, (4096 - 4 * x) >>> (8 : Nat), 0x00, 0x00] 4 '0']
    ∧ Int.testBit ((4096 - 4 * x) >>> (8 : Nat)) 4 = false
    ∧ Int.testBit 0x00 4 = false := by
  have hxq : (x : ℚ) ≤ 1023 := by exact_mod_cast hx1
  have hlt : (x : ℚ) * (d.pwmChannel channel).scaleFactor < 4096 := by
    rw [hs]; linarith
  have hlt' : ¬ (x : ℚ) * (d.pwmChannel channel).scaleFactor ≥ (MAX_I2C_PWM : ℚ) := by
    simp only [MAX_I2C_PWM, ge_iff_le, not_le]
    norm_num
    exact hlt
  have hfloor : ⌊(4096 : ℚ) / 4⌋ = 1024 := by norm_num
  have hon : ⌊((((x - 1024) * -1 + 0 : Int)) : ℚ) * 4⌋ = 4096 - 4 * x := by
    have e : ((((x - 1024) * -1 + 0 : Int)) : ℚ) * 4 = ((4096 - 4 * x : Int) : ℚ) := by
      push_cast; ring
    rw [e, Int.floor_intCast]
  have hoff : ⌊((0 : Int) : ℚ) * 4⌋ = 0 := by norm_num
  have hb0 : (4096 - 4 * x) % 256 % 256 = (4096 - 4 * x) % 256 := by omega
  have hb1 : (4096 - 4 * x) / 256 % 256 = (4096 - 4 * x) / 256 := by omega
  have hbit : Int.testBit ((4096 - 4 * x) >>> (8 : Nat)) 4 = false := by
    rw [shiftRight_8]
    apply testBit_4_of_lt_16 <;> omega
  unfold setPWMValue
  rw [if_neg (not_le.mpr (lt_NUM_of_lt_declared channel hc)), if_neg hlt',
    if_neg (by omega)]
  simp only [sendPwmData, packPoints, storePwmData, ho, hs, hfloor, hon, hoff, land_0xFF,
    shiftRight_8, toChar, hb0, hb1] at hbit ⊢
  refine ⟨trivial, by omega, by omega, trivial, ?_, hbit, by decide⟩
  simp [Function.update, hb0, hb1]

/-- Witness of `setPWMValue_default_interior`: channel 0 of the initialised driver, duty
cycle 100. -/
theorem setPWMValue_default_interior_witness :
    (setPWMValue false initialised 0 100).onPoint = 4096 - 4 * 100
    ∧ 4 ≤ (setPWMValue false initialised 0 100).onPoint
    ∧ (setPWMValue false initialised 0 100).onPoint ≤ 4092
    ∧ (setPWMValue false initialised 0 100).offPoint = 0
    ∧ (setPWMValue false initialised 0 100).bus =
        initialised.bus ++ [BusEvent.sendMessage PWM_SLAVE_ADDRESS
          (initialised.pwmChannel 0).firstRegAddress
          [Int.land (4096 - 4 * 100) 0xFF, (4096 - 4 * 100) >>> (8 : Nat), 0x00, 0x00] 4 '0']
    ∧ Int.testBit ((4096 - 4 * 100) >>> (8 : Nat)) 4 = false
    ∧ Int.testBit 0x00 4 = false :=
  setPWMValue_default_interior false initialised 0 100 (by decide) (by decide)
    (by rw [initialised_pwmChannel]; norm_num [NUM_PWM_CHANNELS])
    (by rw [initialised_pwmChannel]; norm_num [NUM_PWM_CHANNELS])
    (by decide) (by decide)



/-! ### Indices and declared lengths -/

theorem initLoop_pwmData (d : Driver) (i : Int) : (initLoop d i).pwmData = d.pwmData := by
  generalize h : (NUM_PWM_CHANNELS - i).toNat = n
  induction n generalizing d i with
  | zero =>
    rw [initLoop]
    simp only [NUM_PWM_CHANNELS] at h ⊢
    rw [dif_neg (by omega)]
  | succ n ih =>
    rw [initLoop]
    simp only [NUM_PWM_CHANNELS] at h ⊢
    rw [dif_pos (by omega)]
    rw [ih _ _ (by simp only [NUM_PWM_CHANNELS]; omega)]

theorem initialised_pwmData (i : Int) : initialised.pwmData i = 0 := by
  simp only [initialised, initPWMInterface, initLoop_pwmData]
  rfl

/-- C19, evaluated where it fails: `pwmChannel` is declared with `NUM_PWM_CHANNELS - 1 = 15`
elements, so its valid indices are `0 .. 14`; the index 15 is non-negative, is below
`NUM_PWM_CHANNELS`, is not below the declared length, and is used: the loop of
`initPWMInterface` stores `(66, 0, 4)` in the cell `pwmChannel[15]`, and
`configurePWMOutput(15, 7, 2)` passes the channel test and stores in the same cell. -/
theorem pwmChannel_index_past_declaration :
    pwmChannelDeclaredLength = 15
    ∧ ((0 : Int) ≤ 15 ∧ (15 : Int) < NUM_PWM_CHANNELS)
    ∧ ¬ ((15 : Int) < pwmChannelDeclaredLength)
    ∧ startup.pwmChannel 15 = ⟨0, 0, 0⟩
    ∧ (initPWMInterface false 1 startup).pwmChannel 15 = ⟨66, 0, 4⟩
    ∧ (configurePWMOutput false (initPWMInterface false 1 startup) 15 7 2).pwmChannel 15
        = ⟨66, 7, 2⟩ := by
  have hinit : (initPWMInterface false 1 startup).pwmChannel 15 = ⟨66, 0, 4⟩ := by
    rw [initPWMInterface_pwmChannel false 1 startup 15 (by decide), if_pos (by decide)]
    simp only [toChar]
    norm_num
  refine ⟨by decide, by decide, by decide, rfl, hinit, ?_⟩
  simp only [configurePWMOutput, NUM_PWM_CHANNELS]
  norm_num [Function.update, hinit]

/-- C20, evaluated where it fails: `pwmData` is declared with 3 elements, so its valid
indices are `0 .. 2`; `setPWMValue(0, 0)` on the initialised driver stores the full-off flag
`0x10` in the cell `pwmData[3]`, and in each of the three branches (duty cycles 1024, 0 and
100) the length passed to `sendMessage` is 4, above the declared length. -/
theorem pwmData_index_past_declaration :
    pwmDataDeclaredLength = 3
    ∧ ¬ ((3 : Int) < pwmDataDeclaredLength)
    ∧ ¬ ((4 : Int) ≤ pwmDataDeclaredLength)
    ∧ initialised.pwmData 3 = 0
    ∧ (setPWMValue false initialised 0 0).pwmData 3 = 0x10
    ∧ (setPWMValue false initialised 0 1024).dataLength = 4
    ∧ (setPWMValue false initialised 0 0).dataLength = 4
    ∧ (setPWMValue false initialised 0 100).dataLength = 4 := by
  refine ⟨by decide, by decide, by decide, initialised_pwmData 3, ?_, ?_, ?_, ?_⟩
  · simp only [setPWMValue, initialised_pwmChannel, NUM_PWM_CHANNELS, MAX_I2C_PWM,
      sendPwmData, packPoints, storePwmData, toChar]
    norm_num [Function.update]
  · simp only [setPWMValue, initialised_pwmChannel, NUM_PWM_CHANNELS, MAX_I2C_PWM,
      sendPwmData, packPoints, storePwmData, toChar]
    norm_num [Function.update]
  · simp only [setPWMValue, initialised_pwmChannel, NUM_PWM_CHANNELS, MAX_I2C_PWM,
      sendPwmData, packPoints, storePwmData, toChar]
    norm_num [Function.update]
  · simp only [setPWMValue, initialised_pwmChannel, NUM_PWM_CHANNELS, MAX_I2C_PWM,
      sendPwmData, packPoints, storePwmData, toChar]
    norm_num [Function.update]

end PWMInterface
